import Mathlib

/-!
Verification of the osc-booper core against its design document.

The Rust sources are shallowly embedded: pure functions become Lean
functions on `Nat`/`Int`/`String`/`List`, stateful handlers become explicit
state-passing functions, timestamps become `Int` nanoseconds, and fallible
operations return `Option`.  Definitions keep the source names where Lean
allows it.  External collaborators whose code is not part of this
repository (the `mdns_proto` wire reader, the missing `boop_numbers`
accessor) are modelled from the design document and say so in their doc
comments.
-/

namespace OscBooperModel

/-! ## Time constants (jiff timestamps as Int nanoseconds) -/

/-- One second in nanoseconds. -/
def nsPerSec : Int := 1000000000

/-- The chatbox cooldown: `SignedDuration::from_secs(2)` in `osc.rs`. -/
def cooldownNs : Int := 2 * nsPerSec

/-- The periodic-save interval: `SignedDuration::from_mins(5)` in `storage.rs`. -/
def saveIntervalNs : Int := 300 * nsPerSec

/-- The chatbox clear delay: `Duration::from_secs(4)` in `clear_chatbox_loop`. -/
def clearDelayNs : Int := 4 * nsPerSec

/-! ## Integer base-10 logarithm (`u64::ilog10`)

Rust's `u64::ilog10` returns `floor(log10 n)` for `n >= 1` and panics on 0.
We embed it as a fuel-based structural recursion (fuel `n` is enough since
the argument shrinks by a factor of 10 each step). -/

def ilog10Aux : Nat → Nat → Nat
  | 0, _ => 0
  | fuel + 1, n => if n < 10 then 0 else ilog10Aux fuel (n / 10) + 1

/-- `floor(log10 n)` for `n ≥ 1`; the `n = 0` case never arises where it is
used (the source panics there, see `calculate_divisor`). -/
def ilog10 (n : Nat) : Nat := ilog10Aux n n

/-! ## `config.rs`: `TextSuffix` -/

/-- `config.rs`: a suffix rule; `value` is the threshold/remainder, `divisor`
the cached power of ten. -/
structure TextSuffix where
  value : Nat
  message : String
  divisor : Nat
deriving DecidableEq

/-- `config.rs`: result of checking one rule. -/
inductive TextSuffixResult where
  | Break : TextSuffixResult
  | Message : String → TextSuffixResult
  | Skip : TextSuffixResult
deriving DecidableEq

/-- `TextSuffix::calculate_divisor`: `10^(value.ilog10() + 1)`.
`u64::ilog10` panics on 0, modelled as `none`. -/
def TextSuffix.calculate_divisor (value : Nat) : Option Nat :=
  if value = 0 then none else some (10 ^ (ilog10 value + 1))

/-- `TextSuffix::new`: constructs the rule, computing the divisor eagerly;
propagates the `value = 0` panic as `none`. -/
def TextSuffix.new (value : Nat) (message : String) : Option TextSuffix :=
  (TextSuffix.calculate_divisor value).map (fun d => ⟨value, message, d⟩)

/-- `TextSuffix::check_value`: `Break` below the threshold, `Message` on a
modular match, `Skip` otherwise. -/
def TextSuffix.check_value (t : TextSuffix) (value : Nat) : TextSuffixResult :=
  if value < t.value then TextSuffixResult.Break
  else if value % t.divisor = t.value then TextSuffixResult.Message t.message
  else TextSuffixResult.Skip

/-- A rule as actually constructed by `TextSuffix::new`/deserialization:
threshold at least 1 (otherwise construction panics) and cached divisor
equal to `calculate_divisor`. -/
def TextSuffix.wf (t : TextSuffix) : Prop :=
  1 ≤ t.value ∧ t.divisor = 10 ^ (ilog10 t.value + 1)

instance (t : TextSuffix) : Decidable t.wf := by
  unfold TextSuffix.wf; infer_instance

/-- `OscBooper::generate_text_suffix`, with the rule list
(`options.text_suffixes`) passed explicitly: first match wins, `Break`
stops the scan. -/
def generate_text_suffix (suffixes : List TextSuffix) (number : Nat) : Option String :=
  match suffixes with
  | [] => none
  | f_n :: rest =>
    match f_n.check_value number with
    | TextSuffixResult.Break => none
    | TextSuffixResult.Skip => generate_text_suffix rest number
    | TextSuffixResult.Message suffix => some suffix

/-- Spec-side predicate for C2: the rule's threshold is ≤ `n` and `n`
matches it modulo `10^(digit count of the threshold)`. -/
def suffixMatches (n : Nat) (t : TextSuffix) : Bool :=
  decide (t.value ≤ n) && decide (n % 10 ^ (ilog10 t.value + 1) = t.value)

/-! ## `storage.rs`: `BoopStorage`

`jiff::Timestamp` values become `Int` nanoseconds; the only use of
`jiff::Zoned` that matters is the civil date compared by
`time_is_past_midnight`, so a handling step carries both an instant and a
date. -/

/-- The instant at which a message is handled: the `Timestamp::now()`
reading (`ts`, nanoseconds) and the `Zoned::now()` civil date (`date`, a
day number). -/
structure Now where
  ts : Int
  date : Int
deriving DecidableEq

/-- `storage.rs`: the persisted counters.  `last_reset` is kept as its
civil date (all the source reads from it), `last_save` as an instant. -/
structure BoopStorage where
  total_boops : Nat
  today_boops : Nat
  today_boops_record : Nat
  yesterday_boops : Nat
  last_reset_date : Int
  last_save : Int
deriving DecidableEq

/-- `storage.rs` `time_is_past_midnight`: the civil date rolled over. -/
def time_is_past_midnight (last_reset_date date : Int) : Bool :=
  decide (date ≠ last_reset_date)

/-- `BoopStorage::save` with the file write succeeding: `last_save` is set
to now.  (A failed `fs::write` is logged and leaves `last_save` alone; the
claims under proof do not depend on that branch.) -/
def BoopStorage.save (s : BoopStorage) (now : Now) : BoopStorage :=
  { s with last_save := now.ts }

/-- `BoopStorage::time_to_save`: more than 5 minutes since the last save. -/
def BoopStorage.time_to_save (s : BoopStorage) (now : Now) : Bool :=
  decide (s.last_save < now.ts - saveIntervalNs)

/-- `BoopStorage::check_reset`; the second component lists the instants of
the flushes (`save` calls) performed. -/
def BoopStorage.check_reset (s : BoopStorage) (now : Now) : BoopStorage × List Int :=
  if time_is_past_midnight s.last_reset_date now.date then
    let s1 := { s with yesterday_boops := s.today_boops, today_boops := 0,
                       last_reset_date := now.date }
    (s1.save now, [now.ts])
  else (s, [])

/-- `BoopStorage::inc_boops`: reset check, bump both counters, update the
daily record, save if it has been a while.  Flush instants are returned. -/
def BoopStorage.inc_boops (s : BoopStorage) (now : Now) : BoopStorage × List Int :=
  let r1 := s.check_reset now
  let s2 : BoopStorage := { r1.1 with today_boops := r1.1.today_boops + 1,
                                      total_boops := r1.1.total_boops + 1 }
  let s3 : BoopStorage := if s2.today_boops_record < s2.today_boops
            then { s2 with today_boops_record := s2.today_boops } else s2
  if s3.time_to_save now then (s3.save now, r1.2 ++ [now.ts]) else (s3, r1.2)

/-- Modelled from the spec: `BoopStorage::boop_numbers` is called from
`OscBooper::generate_message` but is absent from the provided sources; per
§4.3 the message is formatted from "a short-horizon count and a lifetime
count", so it returns `(today_boops, total_boops)`. -/
def BoopStorage.boop_numbers (s : BoopStorage) : Nat × Nat :=
  (s.today_boops, s.total_boops)

/-! ## `osc.rs`: the event loop state (`OscBooper`) -/

/-- `rosc::OscType`, restricted to the argument kinds the event protocol
carries (bool, string, numeric); only the `Bool false` shape is ever
inspected by the source. -/
inductive OscVal where
  | B : Bool → OscVal
  | I : Int → OscVal
  | S : String → OscVal
deriving DecidableEq

/-- `rosc::OscMessage`: an address and typed arguments. -/
structure OscMessage where
  addr : String
  args : List OscVal
deriving DecidableEq

/-- `str::ends_with` on the underlying characters. -/
def strEndsWith (s suffix : String) : Bool :=
  suffix.data.isSuffixOf s.data

/-- Outcome of one `publish_chatbox` call: the encode step or the socket
send may fail (both are logged and swallowed by the source). -/
inductive SendOutcome where
  | ok : SendOutcome
  | encodeFail : SendOutcome
  | sendFail : SendOutcome
deriving DecidableEq

/-- One chatbox send attempt: the text handed to `publish_chatbox`, the
instant, and whether the bytes actually left the socket. -/
structure SendRec where
  text : String
  time : Int
  delivered : Bool
deriving DecidableEq

/-- Observable effects of handling messages: chatbox send attempts,
storage flush instants, and clear-channel notifications. -/
structure Effects where
  sent : List SendRec
  flushes : List Int
  clears : List Int
deriving DecidableEq

def Effects.empty : Effects := ⟨[], [], []⟩

def Effects.app (a b : Effects) : Effects :=
  ⟨a.sent ++ b.sent, a.flushes ++ b.flushes, a.clears ++ b.clears⟩

/-- `osc.rs` `OscBooper`: the fields the handlers read or write (sockets
and ports carry no state relevant to the claims). -/
structure Booper where
  storage : BoopStorage
  last_message : Int
  boop_address : String
  text_suffixes : List TextSuffix
deriving DecidableEq

/-- The times of the send attempts in an effects record. -/
def sentTimes (eff : Effects) : List Int := eff.sent.map SendRec.time

/-- `OscBooper::should_send_message`: `Timestamp::now() > last_message + 2s`. -/
def Booper.should_send_message (b : Booper) (now : Now) : Bool :=
  decide (b.last_message + cooldownNs < now.ts)

/-- `OscBooper::generate_message`: format the two counter lines, each with
its optional suffix; the flag says whether either line got a suffix. -/
def Booper.generate_message (b : Booper) : String × Bool :=
  let nums := b.storage.boop_numbers
  let today_suffix := match generate_text_suffix b.text_suffixes nums.1 with
    | none => ""
    | some suffix => " " ++ suffix
  let total_suffix := match generate_text_suffix b.text_suffixes nums.2 with
    | none => ""
    | some suffix => " " ++ suffix
  let is_suffixed := !today_suffix.isEmpty || !total_suffix.isEmpty
  ("Today: " ++ toString nums.1 ++ today_suffix ++
   "\nTotal: " ++ toString nums.2 ++ total_suffix, is_suffixed)

/-- `OscBooper::send_message`: `publish_chatbox` (whose encode/send
failures are logged and swallowed), then `last_message = Timestamp::now()`
unconditionally, then the clear channel is notified unconditionally. -/
def Booper.send_message (b : Booper) (text : String) (now : Now)
    (outcome : SendOutcome) : Booper × Effects :=
  ({ b with last_message := now.ts },
   ⟨[⟨text, now.ts, outcome = SendOutcome.ok⟩], [], [now.ts]⟩)

/-- The trailing periodic-save check at the bottom of
`OscBooper::handle_message`. -/
def Booper.periodic_save (b : Booper) (now : Now) : Booper × Effects :=
  if b.storage.time_to_save now then
    ({ b with storage := b.storage.save now }, ⟨[], [now.ts], []⟩)
  else (b, Effects.empty)

/-- `OscBooper::handle_message`.  The three early `return`s of the source
(first argument `Bool(false)`, cooldown absorption, avatar change with no
argument) skip the trailing periodic-save check exactly as in the code. -/
def Booper.handle_message (b : Booper) (message : OscMessage) (now : Now)
    (outcome : SendOutcome) : Booper × Effects :=
  if strEndsWith message.addr b.boop_address && !message.args.isEmpty then
    if message.args.head? = some (OscVal.B false) then (b, Effects.empty)
    else
      let inc := b.storage.inc_boops now
      let b1 := { b with storage := inc.1 }
      let gen := b1.generate_message
      if !gen.2 && !b1.should_send_message now then (b1, ⟨[], inc.2, []⟩)
      else
        let snd := b1.send_message gen.1 now outcome
        let fin := snd.1.periodic_save now
        (fin.1, (Effects.app ⟨[], inc.2, []⟩ (Effects.app snd.2 fin.2)))
  else if message.addr = "/avatar/change" then
    if message.args.isEmpty then (b, Effects.empty)
    else
      let b1 := { b with storage := b.storage.save now }
      let fin := b1.periodic_save now
      (fin.1, Effects.app ⟨[], [now.ts], []⟩ fin.2)
  else
    b.periodic_save now

/-- One inbound activity event as seen by a run of the listener loop: the
decoded message, the instant of handling, and the transmission outcome of
the send it may trigger. -/
structure Ev where
  msg : OscMessage
  now : Now
  outcome : SendOutcome

/-- Handling a sequence of received messages in receipt order. -/
def runEvents (b : Booper) : List Ev → Booper × Effects
  | [] => (b, Effects.empty)
  | e :: es =>
    let h := b.handle_message e.msg e.now e.outcome
    let r := runEvents h.1 es
    (r.1, Effects.app h.2 r.2)

/-- C3's event shape: the address ends with the configured suffix, the
argument list is non-empty, the first argument is not boolean-false, and
the message generated for it (after the counter increment) carries no
special-case suffix. -/
def quietEv (b : Booper) (e : Ev) : Bool :=
  (strEndsWith e.msg.addr b.boop_address && !e.msg.args.isEmpty)
  && !(decide (e.msg.args.head? = some (OscVal.B false)))
  && !({ b with storage := (b.storage.inc_boops e.now).1 }.generate_message).2

/-- Every event of the sequence is a quiet activity event at the state it
is handled in. -/
def quietRun (b : Booper) : List Ev → Bool
  | [] => true
  | e :: es => quietEv b e && quietRun (b.handle_message e.msg e.now e.outcome).1 es

/-! ## `osc.rs`: the debounced chatbox clearing (`clear_chatbox_loop`)

The loop owns a single `Option` slot of a pending clear task (guarded by a
mutex in the source); on each channel signal it aborts the pending task,
then arms a new 4-second one.  We embed it as a discrete-event run over
the time-ordered list of signal instants: a pending clear whose fire time
has passed before the next signal arrives has been transmitted; one still
in its sleep is cancelled by the `abort`. -/

def debounceRun : List Int → Option Int → List Int
  | [], pending =>
    match pending with
    | none => []
    | some f => [f]
  | t :: rest, pending =>
    let fired := match pending with
      | some f => if f < t then [f] else []
      | none => []
    fired ++ debounceRun rest (some (t + clearDelayNs))

/-! ## `oscquery/mdns.rs`: the discovery responder

`MdnsServer::handle_query` parses with four caller-grown buffers.  The
`mdns_proto` crate is external, so `Message::read` is abstracted to a
function from the current buffer sizes to a read result (for a fixed
inbound datagram, the sizes are all it depends on), and the retry loop is
the literal loop of `handle_query` over that function. -/

/-- `mdns_proto::error::BufferType`. -/
inductive BufferType where
  | question : BufferType
  | answer : BufferType
  | authority : BufferType
  | additional : BufferType
deriving DecidableEq

/-- The lengths of the four caller-supplied record buffers. -/
structure Sizes where
  questions : Nat
  answers : Nat
  authorities : Nat
  additionals : Nat
deriving DecidableEq

/-- Result of one `Message::read` attempt: success, a
`ProtoError::NotEnoughWriteSpace { tried_to_write, buffer_type, .. }`, or
any other `ProtoError`. -/
inductive ReadResult (α : Type) where
  | ok : α → ReadResult α
  | notEnoughWriteSpace : Nat → BufferType → ReadResult α
  | otherError : ReadResult α
deriving DecidableEq

/-- The `resize(tried_to_write, default)` performed by `handle_query` on
the section a `NotEnoughWriteSpace` report names. -/
def Sizes.resize (s : Sizes) (bt : BufferType) (k : Nat) : Sizes :=
  match bt with
  | BufferType.question => { s with questions := k }
  | BufferType.answer => { s with answers := k }
  | BufferType.authority => { s with authorities := k }
  | BufferType.additional => { s with additionals := k }

/-- The initial buffer shape of `handle_query`: 4 default questions, 1
default answer, no authorities, no additionals. -/
def initSizes : Sizes := ⟨4, 1, 0, 0⟩

/-- The parse loop of `MdnsServer::handle_query`, run for `fuel` read
attempts: on success it stops; on `NotEnoughWriteSpace` it resizes the
named section and retries the same bytes; on any other error the source
only logs and goes around the loop again with everything unchanged.  The
result carries how many failed attempts preceded the success; `none`
means the loop was still running after `fuel` attempts. -/
def parseLoop {α : Type} (read : Sizes → ReadResult α) : Nat → Sizes → Option (Nat × α)
  | 0, _ => none
  | fuel + 1, s =>
    match read s with
    | ReadResult.ok m => some (0, m)
    | ReadResult.notEnoughWriteSpace k bt =>
      (parseLoop read fuel (s.resize bt k)).map (fun r => (r.1 + 1, r.2))
    | ReadResult.otherError =>
      (parseLoop read fuel s).map (fun r => (r.1 + 1, r.2))

/-- A discovery datagram, by the records its sections hold (record
contents are abstract). -/
structure Datagram where
  questions : List Nat
  answers : List Nat
  authorities : List Nat
  additionals : List Nat
deriving DecidableEq

/-- Modelled from the spec: `mdns_proto`'s `Message::read` is external to
this repository; per §4.4 it parses the sections in order and, when a
section's buffer is smaller than the number of records actually present,
reports that section and the required capacity; with every section
fitting it succeeds with the full record set. -/
def msgRead (d : Datagram) (s : Sizes) : ReadResult Datagram :=
  if s.questions < d.questions.length then
    ReadResult.notEnoughWriteSpace d.questions.length BufferType.question
  else if s.answers < d.answers.length then
    ReadResult.notEnoughWriteSpace d.answers.length BufferType.answer
  else if s.authorities < d.authorities.length then
    ReadResult.notEnoughWriteSpace d.authorities.length BufferType.authority
  else if s.additionals < d.additionals.length then
    ReadResult.notEnoughWriteSpace d.additionals.length BufferType.additional
  else ReadResult.ok d

/-! ## `oscquery/mdns.rs`: record store lookup and replies -/

/-- `mdns_proto::proto::ResourceType`, the variants the source produces. -/
inductive ResourceType where
  | Ptr : ResourceType
  | Srv : ResourceType
  | Txt : ResourceType
  | A : ResourceType
deriving DecidableEq

/-- `mdns_proto::proto::ResourceRecord`: owner name, type, class, ttl and
opaque rdata bytes. -/
structure ResourceRecord where
  name : String
  rtype : ResourceType
  rclass : Nat
  ttl : Nat
  rdata : List Nat
deriving DecidableEq

/-- A question, reduced to the queried name (all `lookup_answer` reads). -/
structure DnsQuestion where
  qname : String
deriving DecidableEq

/-- The reply `lookup_answer` builds: a single primary answer record and
the remaining sibling records in the additional section. -/
structure Reply where
  answers : List ResourceRecord
  additional : List ResourceRecord
deriving DecidableEq

/-- The destination every reply is sent to: the well-known multicast
group `224.0.0.251:5353` (`IPV4_MDNS`, `MDNS_PORT`). -/
def mdnsGroup : (Nat × Nat × Nat × Nat) × Nat := ((224, 0, 0, 251), 5353)

/-- `MdnsServer::lookup_answer`: exact-name lookup in `known_records`; no
entry or an empty entry yields no reply; otherwise the first record
becomes the answer section and the rest the additional section, all taken
from the store unchanged. -/
def lookup_answer (store : List (String × List ResourceRecord))
    (q : DnsQuestion) : Option Reply :=
  match List.lookup q.qname store with
  | none => none
  | some [] => none
  | some (r :: rest) => some ⟨[r], rest⟩

/-- The per-question loop of `MdnsServer::handle_query`: each resolved
question's reply is serialized and sent to the multicast group; a
question without an answer is skipped and the remaining questions are
still processed. -/
def handle_questions (store : List (String × List ResourceRecord)) :
    List DnsQuestion → List (Reply × ((Nat × Nat × Nat × Nat) × Nat))
  | [] => []
  | q :: qs =>
    match lookup_answer store q with
    | some m => (m, mdnsGroup) :: handle_questions store qs
    | none => handle_questions store qs

/-! ## Concrete inputs used by witnesses and counterexamples -/

/-- Fresh counters with every clock at 0. -/
def storage0 : BoopStorage := ⟨0, 0, 0, 0, 0, 0⟩

/-- The two smallest default rules, as `TextSuffix::new` builds them. -/
def rules69420 : List TextSuffix := [⟨69, "Nice", 100⟩, ⟨420, "Blaze it", 1000⟩]

/-- A booper with the default boop address and no suffix rules. -/
def bQuiet : Booper := ⟨storage0, 0, "/OSCBoop", []⟩

/-- A qualifying activity event at a given instant. -/
def boopEvAt (t : Int) : Ev :=
  ⟨⟨"/avatar/parameters/OSCBoop", [OscVal.B true]⟩, ⟨t, 0⟩, SendOutcome.ok⟩

/-- Two qualifying events 1 second apart (the second inside the 2-second
cooldown window of the first). -/
def evsQuiet : List Ev := [boopEvAt (10 * nsPerSec), boopEvAt (11 * nsPerSec)]

/-- A booper whose storage is overdue for a save. -/
def bStale : Booper := ⟨storage0, 0, "/OSCBoop", []⟩

/-- An instant far past the save interval. -/
def nowLate : Now := ⟨400 * nsPerSec, 0⟩

/-- A suffix-matching event whose first argument is boolean-false (the
contact-leaves-bubble shape the source returns early on). -/
def msgBubbleLeave : OscMessage := ⟨"/avatar/parameters/OSCBoop", [OscVal.B false]⟩

/-- A message matching neither the boop suffix nor the avatar address. -/
def msgOther : OscMessage := ⟨"/avatar/parameters/Voice", [OscVal.I 3]⟩

/-- Witness datagram for the grow-and-retry property: one question, three
answers, nothing else. -/
def w9d : Datagram := ⟨[7], [1, 2, 3], [], []⟩

/-- Counterexample datagram: more answers than the initial answer buffer
*and* an authority record, so one grow cycle cannot suffice. -/
def c9d : Datagram := ⟨[7], [1, 2], [5], []⟩

/-- Witness records mirroring `create_records`' service entry. -/
def c8r1 : ResourceRecord := ⟨"_oscjson._tcp.local", ResourceType.Ptr, 1, 120, [3]⟩

def c8r2 : ResourceRecord :=
  ⟨"osc-booper-test._oscjson._tcp.local.", ResourceType.Txt, 1, 120, [9]⟩

def c8r3 : ResourceRecord :=
  ⟨"osc-booper-test._oscjson._tcp.local.", ResourceType.Srv, 1, 120, [0, 0]⟩

/-- A record store owning one name with three records. -/
def c8store : List (String × List ResourceRecord) :=
  [("_oscjson._tcp.local", [c8r1, c8r2, c8r3])]

/-! ## Lemmas about the integer logarithm -/

theorem ilog10Aux_congr :
    ∀ (f1 f2 n : Nat), n ≤ f1 → n ≤ f2 → ilog10Aux f1 n = ilog10Aux f2 n := by
  intro f1
  induction f1 with
  | zero =>
    intro f2 n h1 _
    interval_cases n
    cases f2 <;> simp [ilog10Aux]
  | succ m ih =>
    intro f2 n h1 h2
    match f2, n with
    | 0, n =>
      interval_cases n
      simp [ilog10Aux]
    | f2 + 1, n =>
      by_cases hn : n < 10
      · simp [ilog10Aux, hn]
      · have hpos : 0 < n := by omega
        have hdiv : n / 10 < n := Nat.div_lt_self hpos (by norm_num)
        simp only [ilog10Aux, if_neg hn]
        rw [ih f2 (n / 10) (by omega) (by omega)]

theorem ilog10_small (n : Nat) (h : n < 10) : ilog10 n = 0 := by
  unfold ilog10
  cases n with
  | zero => rfl
  | succ m => simp [ilog10Aux, h]

theorem ilog10_large (n : Nat) (h : 10 ≤ n) : ilog10 n = ilog10 (n / 10) + 1 := by
  obtain ⟨m, rfl⟩ : ∃ m, n = m + 1 := ⟨n - 1, by omega⟩
  have hdiv : (m + 1) / 10 < m + 1 := Nat.div_lt_self (by omega) (by norm_num)
  unfold ilog10
  rw [show ilog10Aux (m + 1) (m + 1) = ilog10Aux m ((m + 1) / 10) + 1 by
        simp [ilog10Aux, Nat.not_lt.mpr h]]
  rw [ilog10Aux_congr m ((m + 1) / 10) ((m + 1) / 10) (by omega) (by omega)]

/-- `ilog10` really is the number of decimal digits minus one:
`10 ^ ilog10 n ≤ n < 10 ^ (ilog10 n + 1)` for `n ≥ 1`. -/
theorem ilog10_char (n : Nat) (h : 1 ≤ n) :
    10 ^ ilog10 n ≤ n ∧ n < 10 ^ (ilog10 n + 1) := by
  induction n using Nat.strong_induction_on with
  | _ n ih =>
    by_cases hn : n < 10
    · rw [ilog10_small n hn]
      simpa using ⟨h, hn⟩
    · push_neg at hn
      have hdivpos : 1 ≤ n / 10 := (Nat.one_le_div_iff (by norm_num)).mpr hn
      have hdivlt : n / 10 < n := Nat.div_lt_self (by omega) (by norm_num)
      obtain ⟨hlo, hhi⟩ := ih (n / 10) hdivlt hdivpos
      rw [ilog10_large n hn]
      constructor
      · calc 10 ^ (ilog10 (n / 10) + 1) = 10 ^ ilog10 (n / 10) * 10 := by ring
          _ ≤ n := (Nat.le_div_iff_mul_le (by norm_num)).mp hlo
      · calc n < 10 ^ (ilog10 (n / 10) + 1) * 10 :=
              (Nat.div_lt_iff_lt_mul (by norm_num)).mp hhi
          _ = 10 ^ (ilog10 (n / 10) + 1 + 1) := by ring

/-! ## C10 -/

/-- C10: for a threshold `v ≥ 1`, `calculate_divisor` returns
`10^(floor(log10 v) + 1)`, a positive power of ten strictly above `v`, so
the remainder in `check_value` is well defined and a rule always matches
its own threshold; for `v = 0` (which the config validation `minimum = 0`
permits) `u64::ilog10` panics, aborting rule construction (modelled as
`none`). -/
theorem calculate_divisor_spec (v : Nat) (hv : 1 ≤ v) :
    TextSuffix.calculate_divisor v = some (10 ^ (ilog10 v + 1))
    ∧ v < 10 ^ (ilog10 v + 1)
    ∧ 0 < 10 ^ (ilog10 v + 1)
    ∧ (∀ mtext : String,
        TextSuffix.check_value ⟨v, mtext, 10 ^ (ilog10 v + 1)⟩ v
          = TextSuffixResult.Message mtext)
    ∧ TextSuffix.calculate_divisor 0 = none := by
  have hlt := (ilog10_char v hv).2
  refine ⟨?_, hlt, Nat.pos_pow_of_pos _ (by norm_num), ?_, rfl⟩
  · have : v ≠ 0 := by omega
    simp [TextSuffix.calculate_divisor, this]
  · intro mtext
    simp [TextSuffix.check_value, Nat.lt_irrefl, Nat.mod_eq_of_lt hlt]

theorem calculate_divisor_spec_witness :
    1 ≤ 69
    ∧ TextSuffix.calculate_divisor 69 = some 100
    ∧ 69 < 100
    ∧ TextSuffix.check_value ⟨69, "Nice", 100⟩ 69 = TextSuffixResult.Message "Nice"
    ∧ TextSuffix.calculate_divisor 0 = none := by
  have h := calculate_divisor_spec 69 (by norm_num)
  exact ⟨by norm_num, h.1, by norm_num, h.2.2.2.1 "Nice", h.2.2.2.2⟩

/-! ## C2 -/

/-- C2: over a rule list sorted ascending by threshold (with divisors as
`TextSuffix::new` caches them), `generate_text_suffix n` returns the
message of the first rule whose threshold `t` satisfies `t ≤ n` and
`n mod 10^(digits of t) = t`, and returns `none` as soon as it reaches a
rule whose threshold exceeds `n`: it equals a first-match search with the
predicate `suffixMatches`. -/
theorem generate_text_suffix_first_match (rules : List TextSuffix) (n : Nat)
    (hwf : ∀ t ∈ rules, t.wf)
    (hsorted : List.Pairwise (fun a b => a.value ≤ b.value) rules) :
    generate_text_suffix rules n
      = (rules.find? (suffixMatches n)).map TextSuffix.message := by
  induction rules with
  | nil => rfl
  | cons f rest ih =>
    have hwf_f : f.wf := hwf f (List.mem_cons_self f rest)
    have hwf_rest : ∀ t ∈ rest, t.wf := fun t ht => hwf t (List.mem_cons_of_mem f ht)
    obtain ⟨hle, hsorted_rest⟩ := List.pairwise_cons.mp hsorted
    by_cases h1 : n < f.value
    · have hpf : ¬ suffixMatches n f = true := by
        simp only [suffixMatches, Bool.and_eq_true, decide_eq_true_eq, not_and]
        omega
      have hnone : rest.find? (suffixMatches n) = none := by
        apply List.find?_eq_none.mpr
        intro t ht
        have := hle t ht
        simp only [suffixMatches, Bool.and_eq_true, decide_eq_true_eq, not_and]
        omega
      rw [List.find?_cons_of_neg _ hpf, hnone]
      simp [generate_text_suffix, TextSuffix.check_value, h1]
    · push_neg at h1
      by_cases h2 : n % f.divisor = f.value
      · have hpf : suffixMatches n f = true := by
          simp only [suffixMatches, Bool.and_eq_true, decide_eq_true_eq]
          exact ⟨h1, hwf_f.2 ▸ h2⟩
        rw [List.find?_cons_of_pos _ hpf]
        simp [generate_text_suffix, TextSuffix.check_value, Nat.not_lt.mpr h1, h2]
      · have hpf : ¬ suffixMatches n f = true := by
          simp only [suffixMatches, Bool.and_eq_true, decide_eq_true_eq, not_and]
          intro _
          exact fun hc => h2 (hwf_f.2 ▸ hc)
        rw [List.find?_cons_of_neg _ hpf]
        simp only [generate_text_suffix, TextSuffix.check_value,
          if_neg (Nat.not_lt.mpr h1), if_neg h2]
        exact ih hwf_rest hsorted_rest

theorem generate_text_suffix_first_match_witness :
    (∀ t ∈ rules69420, t.wf)
    ∧ List.Pairwise (fun a b => a.value ≤ b.value) rules69420
    ∧ generate_text_suffix rules69420 69 = some "Nice"
    ∧ generate_text_suffix rules69420 12345669 = some "Nice" := by
  refine ⟨by decide, by decide, ?_, ?_⟩
  · exact (generate_text_suffix_first_match rules69420 69 (by decide) (by decide)).trans
      (by decide)
  · exact (generate_text_suffix_first_match rules69420 12345669 (by decide)
      (by decide)).trans (by decide)

/-! ## C6 -/

/-- C6: `should_send_message` returns true iff the current time is
strictly later than `last_message` plus the 2-second cooldown; at exactly
`last_message + 2s` it returns false. -/
theorem should_send_message_strict (b : Booper) (now : Now) :
    (b.should_send_message now = true ↔ b.last_message + cooldownNs < now.ts)
    ∧ b.should_send_message ⟨b.last_message + cooldownNs, now.date⟩ = false := by
  constructor
  · simp [Booper.should_send_message]
  · simp [Booper.should_send_message]

/-! ## C5 -/

/-- C5 counterexample: `send_message` with a failing transmission (socket
send error; nothing is delivered) still changes the stored last-sent
timestamp, contradicting "the stored last-sent timestamp is unchanged". -/
theorem send_message_failure_still_updates :
    (bQuiet.send_message "Today: 1\nTotal: 1" ⟨nsPerSec, 0⟩
        SendOutcome.sendFail).1.last_message ≠ bQuiet.last_message
    ∧ ∀ r ∈ (bQuiet.send_message "Today: 1\nTotal: 1" ⟨nsPerSec, 0⟩
        SendOutcome.sendFail).2.sent, r.delivered = false := by
  constructor
  · decide
  · intro r hr
    simp [Booper.send_message] at hr
    simp [hr]

/-- C5 amended: `send_message` sets the last-sent timestamp to the call's
instant on every call — also when encoding or the socket send fails (both
are logged and swallowed inside `publish_chatbox`) — and notifies the
clear channel unconditionally. -/
theorem send_message_always_updates (b : Booper) (text : String) (now : Now)
    (o : SendOutcome) :
    (b.send_message text now o).1.last_message = now.ts
    ∧ (b.send_message text now o).2.clears = [now.ts]
    ∧ (∀ r ∈ (b.send_message text now o).2.sent,
        r.delivered = decide (o = SendOutcome.ok)) := by
  refine ⟨rfl, rfl, ?_⟩
  intro r hr
  simp [Booper.send_message] at hr
  simp [hr]

/-! ## C7 -/

/-- C7: the pending-clear slot holds at most one task (an `Option`, taken
and aborted under the mutex before a new task is armed), so two
`notify_sent` signals within the 4-second delay window produce exactly one
clear transmission, scheduled from the second signal's instant. -/
theorem debounce_second_signal_wins (t1 t2 : Int) (h1 : t1 ≤ t2)
    (h2 : t2 < t1 + clearDelayNs) :
    debounceRun [t1, t2] none = [t2 + clearDelayNs] := by
  have hnf : ¬ (t1 + clearDelayNs < t2) := not_lt.mpr (le_of_lt h2)
  simp [debounceRun, hnf]

theorem debounce_second_signal_wins_witness :
    (0 : Int) ≤ 2 * nsPerSec
    ∧ 2 * nsPerSec < 0 + clearDelayNs
    ∧ debounceRun [0, 2 * nsPerSec] none = [2 * nsPerSec + clearDelayNs] :=
  ⟨by decide, by decide,
   debounce_second_signal_wins 0 (2 * nsPerSec) (by decide) (by decide)⟩

/-! ## C1 -/

/-- C1: the claim's grow-and-retry half is the loop's definition, but its
"any other parse failure is logged and the datagram dropped (the loop
exits)" half fails on the code: the error arm of `handle_query`'s loop
only logs and goes around again with the same bytes and unchanged
buffers, so on a datagram whose parse fails with a non-capacity error the
loop never exits, no matter how many attempts it is given. -/
theorem parse_loop_never_drops_bad_datagram (fuel : Nat) (s : Sizes) :
    parseLoop (fun _ => (ReadResult.otherError : ReadResult Datagram)) fuel s
      = none := by
  induction fuel generalizing s with
  | zero => rfl
  | succ n ih => simp [parseLoop, ih]

/-! ## C9 -/

/-- C9 counterexample: a datagram with more answers than the initial
1-slot answer buffer but also one authority record (whose initial buffer
is empty).  The attempt after the answer grow is still not a success, and
the loop needs two grow-and-retry cycles, not one. -/
theorem parse_two_cycles_needed :
    1 < c9d.answers.length
    ∧ msgRead c9d (initSizes.resize BufferType.answer 2) ≠ ReadResult.ok c9d
    ∧ parseLoop (msgRead c9d) 5 initSizes = some (2, c9d) := by
  refine ⟨by decide, by decide, by decide⟩

/-- C9 amended: provided the remaining sections fit their initial buffers
(at most 4 questions, no authority and no additional records), a datagram
with more answer records than the initially provided one-slot answer
buffer parses after exactly one grow-and-retry cycle, the second attempt
on the same bytes yielding the full record set with nothing lost or
duplicated. -/
theorem parse_grow_retry_once (d : Datagram)
    (hq : d.questions.length ≤ 4) (hau : d.authorities = [])
    (had : d.additionals = []) (ha : 1 < d.answers.length) :
    parseLoop (msgRead d) 2 initSizes = some (1, d) := by
  have h1 : msgRead d initSizes
      = ReadResult.notEnoughWriteSpace d.answers.length BufferType.answer := by
    simp [msgRead, initSizes, Nat.not_lt.mpr hq, ha]
  have h2 : msgRead d (initSizes.resize BufferType.answer d.answers.length)
      = ReadResult.ok d := by
    simp [msgRead, initSizes, Sizes.resize, hau, had, Nat.not_lt.mpr hq]
  simp [parseLoop, h1, h2]

theorem parse_grow_retry_once_witness :
    w9d.questions.length ≤ 4 ∧ w9d.authorities = [] ∧ w9d.additionals = []
    ∧ 1 < w9d.answers.length
    ∧ parseLoop (msgRead w9d) 2 initSizes = some (1, w9d) :=
  ⟨by decide, rfl, rfl, by decide,
   parse_grow_retry_once w9d (by decide) rfl rfl (by decide)⟩

/-! ## C8 -/

/-- C8: a question whose name has no store entry or an empty entry yields
no reply; an entry `r :: rest` yields exactly one reply with `r` as the
single answer record and `rest` as the additional section, verbatim from
the store; the per-question loop resolves each question independently and
sends every built reply to the multicast group. -/
theorem lookup_answer_spec (store : List (String × List ResourceRecord))
    (q : DnsQuestion) (qs : List DnsQuestion) :
    (List.lookup q.qname store = none → lookup_answer store q = none)
    ∧ (List.lookup q.qname store = some [] → lookup_answer store q = none)
    ∧ (∀ (r : ResourceRecord) (rest : List ResourceRecord),
        List.lookup q.qname store = some (r :: rest) →
        lookup_answer store q = some ⟨[r], rest⟩)
    ∧ handle_questions store qs
      = qs.filterMap (fun q2 => (lookup_answer store q2).map (fun m => (m, mdnsGroup)))
    ∧ (∀ x ∈ handle_questions store qs, x.2 = mdnsGroup) := by
  refine ⟨?_, ?_, ?_, ?_, ?_⟩
  · intro h; simp [lookup_answer, h]
  · intro h; simp [lookup_answer, h]
  · intro r rest h; simp [lookup_answer, h]
  · induction qs with
    | nil => rfl
    | cons q2 qs ih =>
      cases hl : lookup_answer store q2 with
      | none => simp [handle_questions, hl, ih]
      | some m => simp [handle_questions, hl, ih]
  · induction qs with
    | nil => intro x hx; cases hx
    | cons q2 qs ih =>
      intro x hx
      cases hl : lookup_answer store q2 with
      | none =>
        rw [handle_questions, hl] at hx
        exact ih x hx
      | some m =>
        rw [handle_questions, hl] at hx
        rcases List.mem_cons.mp hx with h | h
        · rw [h]
        · exact ih x h

theorem lookup_answer_spec_witness :
    List.lookup "_oscjson._tcp.local" c8store = some [c8r1, c8r2, c8r3]
    ∧ lookup_answer c8store ⟨"_oscjson._tcp.local"⟩ = some ⟨[c8r1], [c8r2, c8r3]⟩
    ∧ lookup_answer c8store ⟨"absent.local"⟩ = none :=
  ⟨by decide,
   (lookup_answer_spec c8store ⟨"_oscjson._tcp.local"⟩ []).2.2.1 c8r1 [c8r2, c8r3]
     (by decide),
   (lookup_answer_spec c8store ⟨"absent.local"⟩ []).1 (by decide)⟩

/-! ## Facts about `inc_boops` and `handle_message` -/

theorem inc_boops_total (s : BoopStorage) (now : Now) :
    (s.inc_boops now).1.total_boops = s.total_boops + 1 := by
  unfold BoopStorage.inc_boops BoopStorage.check_reset BoopStorage.save
  dsimp only
  split_ifs <;> rfl

/-- If a save was due before the increment, `inc_boops` performs one:
either the reset branch saved, or the explicit due check fires. -/
theorem inc_boops_flushes_of_due (s : BoopStorage) (now : Now)
    (h : s.time_to_save now = true) : (s.inc_boops now).2 ≠ [] := by
  unfold BoopStorage.inc_boops BoopStorage.check_reset BoopStorage.save
  dsimp only
  split_ifs <;> simp_all [BoopStorage.time_to_save]

/-- After `inc_boops`, no save is due at the same instant: either it just
saved (setting `last_save := now`), or none was due to begin with. -/
theorem inc_boops_not_due_after (s : BoopStorage) (now : Now) :
    (s.inc_boops now).1.time_to_save now = false := by
  unfold BoopStorage.inc_boops BoopStorage.check_reset BoopStorage.save
  dsimp only
  split_ifs <;>
    simp_all [BoopStorage.time_to_save, saveIntervalNs, nsPerSec] <;> omega

theorem inc_boops_last_save_cases (s : BoopStorage) (now : Now) :
    (s.inc_boops now).1.last_save = now.ts
    ∨ (s.inc_boops now).1.last_save = s.last_save := by
  unfold BoopStorage.inc_boops BoopStorage.check_reset BoopStorage.save
  dsimp only
  split_ifs <;> simp

theorem sentTimes_app (a b : Effects) :
    sentTimes (Effects.app a b) = sentTimes a ++ sentTimes b := by
  simp [sentTimes, Effects.app]

/-- The absorbed path of `handle_message`: a qualifying activity event
whose generated message has no suffix, arriving while the cooldown gate
denies sending, increments the counters (and performs any due flush
inside `inc_boops`) but transmits nothing and leaves `last_message`
alone. -/
theorem handle_message_absorbed (b : Booper) (msg : OscMessage) (now : Now)
    (o : SendOutcome)
    (hb : (strEndsWith msg.addr b.boop_address && !msg.args.isEmpty) = true)
    (hf : ¬ msg.args.head? = some (OscVal.B false))
    (hs : ({ b with storage := (b.storage.inc_boops now).1 } : Booper).generate_message.2
            = false)
    (hc : b.should_send_message now = false) :
    b.handle_message msg now o
      = ({ b with storage := (b.storage.inc_boops now).1 },
         ⟨[], (b.storage.inc_boops now).2, []⟩) := by
  have hc1 : ({ b with storage := (b.storage.inc_boops now).1 } : Booper).should_send_message
      now = false := hc
  simp only [Booper.handle_message, hb, if_pos, if_neg hf, hs, hc1]
  simp

/-- The send path of `handle_message`: a qualifying activity event whose
generated message has no suffix, arriving with the cooldown gate open,
increments the counters, hands one message to `publish_chatbox`, records
`last_message := now` and pings the clear channel; the trailing periodic
check never re-saves at the same instant. -/
theorem handle_message_send (b : Booper) (msg : OscMessage) (now : Now)
    (o : SendOutcome)
    (hb : (strEndsWith msg.addr b.boop_address && !msg.args.isEmpty) = true)
    (hf : ¬ msg.args.head? = some (OscVal.B false))
    (hs : ({ b with storage := (b.storage.inc_boops now).1 } : Booper).generate_message.2
            = false)
    (hc : b.should_send_message now = true) :
    b.handle_message msg now o
      = ({ b with storage := (b.storage.inc_boops now).1, last_message := now.ts },
         ⟨[⟨({ b with storage := (b.storage.inc_boops now).1 } : Booper).generate_message.1,
            now.ts, decide (o = SendOutcome.ok)⟩],
          (b.storage.inc_boops now).2, [now.ts]⟩) := by
  have hc1 : ({ b with storage := (b.storage.inc_boops now).1 } : Booper).should_send_message
      now = true := hc
  simp only [Booper.handle_message, hb, if_pos, if_neg hf, hs, hc1]
  simp [Booper.send_message, Booper.periodic_save, inc_boops_not_due_after,
    Effects.app, Effects.empty]

theorem runEvents_cons (b : Booper) (e : Ev) (es : List Ev) :
    runEvents b (e :: es)
      = ((runEvents (b.handle_message e.msg e.now e.outcome).1 es).1,
         Effects.app (b.handle_message e.msg e.now e.outcome).2
           (runEvents (b.handle_message e.msg e.now e.outcome).1 es).2) := rfl

/-- Induction core for C3: over a quiet run, every event bumps the total
counter, the send instants are pairwise more than a cooldown apart, and
every send instant clears the initial cooldown horizon. -/
theorem quiet_run_aux (evs : List Ev) : ∀ (b : Booper), quietRun b evs = true →
    (runEvents b evs).1.storage.total_boops = b.storage.total_boops + evs.length
    ∧ List.Pairwise (fun a c => a + cooldownNs < c) (sentTimes (runEvents b evs).2)
    ∧ (∀ t ∈ sentTimes (runEvents b evs).2, b.last_message + cooldownNs < t) := by
  have hCpos : (0 : Int) < cooldownNs := by decide
  induction evs with
  | nil =>
    intro b _
    simp [runEvents, sentTimes, Effects.empty]
  | cons e es ih =>
    intro b hq
    rw [quietRun, Bool.and_eq_true] at hq
    obtain ⟨hqe, hqrest⟩ := hq
    rw [quietEv, Bool.and_eq_true, Bool.and_eq_true] at hqe
    obtain ⟨⟨hb, hf⟩, hs⟩ := hqe
    rw [Bool.not_eq_true', decide_eq_false_iff_not] at hf
    rw [Bool.not_eq_true'] at hs
    by_cases hc : b.should_send_message e.now = true
    · have hstep := handle_message_send b e.msg e.now e.outcome hb hf hs hc
      have hb1 : (b.handle_message e.msg e.now e.outcome).1
          = { b with storage := (b.storage.inc_boops e.now).1,
                     last_message := e.now.ts } := by rw [hstep]
      have heff : (b.handle_message e.msg e.now e.outcome).2
          = ⟨[⟨({ b with storage := (b.storage.inc_boops e.now).1 } : Booper).generate_message.1,
               e.now.ts, decide (e.outcome = SendOutcome.ok)⟩],
             (b.storage.inc_boops e.now).2, [e.now.ts]⟩ := by rw [hstep]
      rw [hb1] at hqrest
      have hIH := ih _ hqrest
      dsimp only at hIH
      rw [runEvents_cons, hb1, heff]
      rw [sentTimes_app]
      have hsent1 : sentTimes
          (⟨[⟨({ b with storage := (b.storage.inc_boops e.now).1 } : Booper).generate_message.1,
              e.now.ts, decide (e.outcome = SendOutcome.ok)⟩],
            (b.storage.inc_boops e.now).2, [e.now.ts]⟩ : Effects) = [e.now.ts] := rfl
      rw [hsent1, List.singleton_append]
      have hgate : b.last_message + cooldownNs < e.now.ts := by
        have h := hc
        rw [Booper.should_send_message, decide_eq_true_eq] at h
        exact h
      refine ⟨?_, ?_, ?_⟩
      · rw [hIH.1]
        have := inc_boops_total b.storage e.now
        simp only [List.length_cons]
        omega
      · rw [List.pairwise_cons]
        exact ⟨fun t ht => hIH.2.2 t ht, hIH.2.1⟩
      · intro t ht
        rcases List.mem_cons.mp ht with h | h
        · omega
        · have := hIH.2.2 t h
          omega
    · rw [Bool.not_eq_true] at hc
      have hstep := handle_message_absorbed b e.msg e.now e.outcome hb hf hs hc
      have hb1 : (b.handle_message e.msg e.now e.outcome).1
          = { b with storage := (b.storage.inc_boops e.now).1 } := by rw [hstep]
      have heff : (b.handle_message e.msg e.now e.outcome).2
          = ⟨[], (b.storage.inc_boops e.now).2, []⟩ := by rw [hstep]
      rw [hb1] at hqrest
      have hIH := ih _ hqrest
      rw [runEvents_cons, hb1, heff]
      rw [sentTimes_app]
      have hsent1 : sentTimes (⟨[], (b.storage.inc_boops e.now).2, []⟩ : Effects) = [] := rfl
      rw [hsent1, List.nil_append]
      refine ⟨?_, hIH.2.1, hIH.2.2⟩
      rw [hIH.1]
      have := inc_boops_total b.storage e.now
      simp only [List.length_cons]
      omega

/-! ## C3 -/

/-- C3: for qualifying activity events (suffix-matching address,
non-empty arguments, first argument not boolean-false) whose generated
message carries no special-case suffix: when the cooldown gate denies
sending the event is absorbed with the counters still incremented and
nothing transmitted; and over any such quiet run every event is counted
while consecutive send instants are always more than the 2-second
cooldown apart — at most one notification per cooldown window. -/
theorem activity_event_cooldown_spec (b : Booper) (evs : List Ev)
    (hq : quietRun b evs = true) :
    ((runEvents b evs).1.storage.total_boops = b.storage.total_boops + evs.length
     ∧ List.Pairwise (fun a c => a + cooldownNs < c) (sentTimes (runEvents b evs).2))
    ∧ (∀ (msg : OscMessage) (now : Now) (o : SendOutcome),
        (strEndsWith msg.addr b.boop_address && !msg.args.isEmpty) = true →
        ¬ msg.args.head? = some (OscVal.B false) →
        ({ b with storage := (b.storage.inc_boops now).1 } : Booper).generate_message.2
          = false →
        b.should_send_message now = false →
        b.handle_message msg now o
          = ({ b with storage := (b.storage.inc_boops now).1 },
             ⟨[], (b.storage.inc_boops now).2, []⟩)) :=
  ⟨⟨(quiet_run_aux evs b hq).1, (quiet_run_aux evs b hq).2.1⟩,
   fun msg now o hb hf hs hc => handle_message_absorbed b msg now o hb hf hs hc⟩

theorem activity_event_cooldown_spec_witness :
    quietRun bQuiet evsQuiet = true
    ∧ (runEvents bQuiet evsQuiet).1.storage.total_boops
        = bQuiet.storage.total_boops + 2
    ∧ List.Pairwise (fun a c => a + cooldownNs < c)
        (sentTimes (runEvents bQuiet evsQuiet).2) :=
  ⟨by decide,
   (activity_event_cooldown_spec bQuiet evsQuiet (by decide)).1.1,
   (activity_event_cooldown_spec bQuiet evsQuiet (by decide)).1.2⟩

/-! ## C4 -/

/-- C4 counterexample: a suffix-matching event whose first argument is
boolean-false arrives while a save is due; `handle_message` returns early
and no flush is triggered, contrary to "independent of how it is
classified". -/
theorem bubble_leave_skips_periodic_save :
    bStale.storage.time_to_save nowLate = true
    ∧ (bStale.handle_message msgBubbleLeave nowLate SendOutcome.ok).2.flushes = [] :=
  ⟨by decide, by decide⟩

/-- C4 amended: if a save is due, handling any received message triggers
a flush — except on the two early-return paths, a suffix-matching event
whose first argument is boolean-false and an avatar-change message with
an empty argument list, which return before any storage touch. -/
theorem handle_message_periodic_flush (b : Booper) (msg : OscMessage) (now : Now)
    (o : SendOutcome)
    (ht : b.storage.time_to_save now = true)
    (h1 : (strEndsWith msg.addr b.boop_address && !msg.args.isEmpty) = true →
          ¬ msg.args.head? = some (OscVal.B false))
    (h2 : (strEndsWith msg.addr b.boop_address && !msg.args.isEmpty) = false →
          msg.addr = "/avatar/change" → msg.args.isEmpty = false) :
    (b.handle_message msg now o).2.flushes ≠ [] := by
  by_cases hb : (strEndsWith msg.addr b.boop_address && !msg.args.isEmpty) = true
  · have hf := h1 hb
    have hflush := inc_boops_flushes_of_due b.storage now ht
    by_cases hc : b.should_send_message now = true
    · by_cases hs : ({ b with storage := (b.storage.inc_boops now).1 } : Booper).generate_message.2 = false
      · rw [handle_message_send b msg now o hb hf hs hc]
        exact hflush
      · simp only [Booper.handle_message, hb, if_pos, if_neg hf]
        rw [Bool.not_eq_false] at hs
        simp only [hs, Bool.not_true, Bool.false_and, Bool.false_eq_true, if_false]
        simp only [Effects.app]
        simp only [ne_eq, List.append_eq_nil, not_and]
        intro hcontra
        exact absurd hcontra hflush
    · by_cases hs : ({ b with storage := (b.storage.inc_boops now).1 } : Booper).generate_message.2 = false
      · rw [Bool.not_eq_true] at hc
        rw [handle_message_absorbed b msg now o hb hf hs hc]
        exact hflush
      · simp only [Booper.handle_message, hb, if_pos, if_neg hf]
        rw [Bool.not_eq_false] at hs
        simp only [hs, Bool.not_true, Bool.false_and, Bool.false_eq_true, if_false]
        simp only [Effects.app]
        simp only [ne_eq, List.append_eq_nil, not_and]
        intro hcontra
        exact absurd hcontra hflush
  · rw [Bool.not_eq_true] at hb
    by_cases ha : msg.addr = "/avatar/change"
    · have hne := h2 hb ha
      simp only [Booper.handle_message, hb, Bool.false_eq_true, if_false]
      rw [if_pos ha]
      simp only [hne, Bool.false_eq_true, if_false]
      simp only [Booper.periodic_save, Effects.app]
      split <;> simp
    · simp only [Booper.handle_message, hb, Bool.false_eq_true, if_false, ha,
      Booper.periodic_save, ht, if_true]
      simp [ht]

theorem handle_message_periodic_flush_witness :
    bStale.storage.time_to_save nowLate = true
    ∧ (bStale.handle_message msgOther nowLate SendOutcome.ok).2.flushes ≠ [] :=
  ⟨by decide,
   handle_message_periodic_flush bStale msgOther nowLate SendOutcome.ok
     (by decide) (by decide) (by decide)⟩

end OscBooperModel
